import Mathlib

/-!
# Verification of the Bit-Earth smart-meter telemetry agent

A shallow embedding of `hardware/iot-integration/python/iot_sensor_reader.py`
(class `SmartMeterReader`) and proofs about it.

Modelling conventions:
* Python floats are modelled as exact rationals (`ℚ`); `int(x)` is modelled by
  `pyInt` (truncation toward zero, which is Python's behaviour).
* `json.dumps(d, sort_keys=True, separators=(',', ':'))` is modelled by `dumps`
  over a small JSON value type; object keys are sorted lexicographically, and
  separators carry no spaces, as in the source.  The exact decimal rendering of
  Python floats is not reproduced (`renderRat` is a fixed deterministic stand-in);
  no claim below depends on the digits of a number, only on determinism of the
  encoding and on which fields it covers.
* `hashlib.sha256` is modelled by an arbitrary function `hash : String → String`:
  the claims are about which bytes are fed to the hash, never about SHA-256 itself.
* The oracle's HTTP response (status code or raised exception) and the clock are
  inputs of each cycle.
-/

namespace IotSensorReader

/-- Dataclass `SensorReading` (floats as exact rationals). -/
structure SensorReading where
  timestamp : Int
  voltage : ℚ
  current : ℚ
  power_factor : ℚ
  frequency : ℚ
  temperature : ℚ
  humidity : ℚ
deriving DecidableEq, Repr

/-- Dataclass `PoEPacket` before `asdict` conversion. -/
structure PoEPacket where
  device_id : String
  timestamp : Int
  energy_wh : Int
  cumulative_energy : Int
  sensor_readings : List SensorReading
  firmware_version : String := "1.0.0"
  protocol_version : String := "poe-v1"
deriving DecidableEq, Repr

/-- Python `int(x)` on a float: truncation toward zero. -/
def pyInt (q : ℚ) : Int :=
  if 0 ≤ q then ⌊q⌋ else -⌊-q⌋

/-- `SmartMeterReader.calculate_energy` (lines 164-184): apparent power =
V·I, real power = apparent·pf, energy Wh = real·Δt/3600, clamped to ≥ 0.
The method reads only its two arguments and assigns no attribute of `self`,
so it is a pure function. -/
def calculate_energy (reading : SensorReading) (time_delta : ℚ) : ℚ :=
  let apparent_power := reading.voltage * reading.current
  let real_power := apparent_power * reading.power_factor
  let energy_wh := (real_power * time_delta) / 3600
  max 0 energy_wh

mutual
/-- JSON values, as far as the packet dictionary needs them.  Lists of
values and of key-value fields are inlined as mutual inductives so that the
serializer below is structurally recursive. -/
inductive Json where
  | str (s : String)
  | int (n : Int)
  | num (q : ℚ)
  | arr (xs : JsonList)
  | obj (fields : JsonFields)
inductive JsonList where
  | nil
  | cons (hd : Json) (tl : JsonList)
inductive JsonFields where
  | nil
  | cons (k : String) (v : Json) (tl : JsonFields)
end

/-- Build a `JsonList` from an ordinary list. -/
def JsonList.ofList : List Json → JsonList
  | [] => .nil
  | j :: rest => .cons j (JsonList.ofList rest)

/-- Build the field list of a JSON object from an association list
(a Python dict in iteration order). -/
def JsonFields.ofList : List (String × Json) → JsonFields
  | [] => .nil
  | (k, v) :: rest => .cons k v (JsonFields.ofList rest)

/-- Deterministic stand-in rendering for a float (see header note). -/
def renderRat (q : ℚ) : String :=
  toString q.num ++ "/" ++ toString q.den

/-- Lexicographic comparison of two strings by Unicode code point, as Python
compares `str` keys in `sorted`. -/
def leChars : List Char → List Char → Bool
  | [], _ => true
  | _ :: _, [] => false
  | c :: cs, d :: ds =>
    if c.toNat < d.toNat then true
    else if d.toNat < c.toNat then false
    else leChars cs ds

/-- Key order on (key, rendered value) pairs: compare the keys only. -/
def keyLe (a b : String × String) : Prop :=
  leChars a.1.data b.1.data = true

instance : DecidableRel keyLe :=
  fun a b => inferInstanceAs (Decidable (leChars a.1.data b.1.data = true))

/-- Sort the (key, rendered value) pairs of an object by key, as
`sort_keys=True` does. -/
def sortPairs (l : List (String × String)) : List (String × String) :=
  l.insertionSort keyLe

mutual
/-- `json.dumps(·, sort_keys=True, separators=(',', ':'))`.  Objects are
serialized with keys in lexicographic order and no spaces around `,` and `:`;
sorting the rendered (key, value-string) pairs by key is the same as sorting
the fields before rendering, since the comparison reads only the key. -/
def dumps : Json → String
  | .str s => "\x22" ++ s ++ "\x22"
  | .int n => toString n
  | .num q => renderRat q
  | .arr xs => "[" ++ String.intercalate "," (dumpsList xs) ++ "]"
  | .obj fs => "\x7b" ++ String.intercalate ","
      ((sortPairs (dumpsFields fs)).map
        (fun kv => "\x22" ++ kv.1 ++ "\x22:" ++ kv.2)) ++ "\x7d"
def dumpsList : JsonList → List String
  | .nil => []
  | .cons j rest => dumps j :: dumpsList rest
def dumpsFields : JsonFields → List (String × String)
  | .nil => []
  | .cons k v rest => (k, dumps v) :: dumpsFields rest
end

/-- `SmartMeterReader.sign_packet` (lines 192-212): canonical JSON of the
packet dict, hashed, then hashed again together with the private key.
`hash` stands for `hashlib.sha256(...).digest()/.hexdigest()` (see header). -/
def sign_packet (hash : String → String) (private_key : String)
    (packet : List (String × Json)) : String :=
  let canonical_json := dumps (Json.obj (JsonFields.ofList packet))
  let message_hash := hash canonical_json
  hash (message_hash ++ private_key)

/-- Static configuration of a `SmartMeterReader` instance, as read from the
config dict in `__init__`. -/
structure Config where
  meter_id : String
  manufacturer : String
  serial_number : String
  private_key : String
deriving Repr

/-- `SmartMeterReader.generate_device_id` (lines 186-190):
hash of `"{meter_id}:{manufacturer}:{serial_number}"`. -/
def generate_device_id (hash : String → String) (cfg : Config) : String :=
  hash (cfg.meter_id ++ ":" ++ cfg.manufacturer ++ ":" ++ cfg.serial_number)

/-- `dataclasses.asdict` on a `SensorReading`: fields in declaration order. -/
def asdictReading (r : SensorReading) : Json :=
  .obj (JsonFields.ofList
    [("timestamp", .int r.timestamp), ("voltage", .num r.voltage),
     ("current", .num r.current), ("power_factor", .num r.power_factor),
     ("frequency", .num r.frequency), ("temperature", .num r.temperature),
     ("humidity", .num r.humidity)])

/-- `dataclasses.asdict` on a `PoEPacket`: fields in declaration order.
(`sensor_readings` holds dicts already, from `[asdict(r) for r in readings]`.) -/
def asdictPacket (p : PoEPacket) : List (String × Json) :=
  [("device_id", .str p.device_id), ("timestamp", .int p.timestamp),
   ("energy_wh", .int p.energy_wh), ("cumulative_energy", .int p.cumulative_energy),
   ("sensor_readings", .arr (JsonList.ofList (p.sensor_readings.map asdictReading))),
   ("firmware_version", .str p.firmware_version),
   ("protocol_version", .str p.protocol_version)]

/-- `SmartMeterReader.create_poe_packet` (lines 214-239): build the
`PoEPacket` dataclass (energies truncated with `int(...)`), convert it with
`asdict`, sign that dict, then attach `signature` and finally `meter_id`.
`cumulative` is the value of `self.cumulative_energy_wh` at call time. -/
def create_poe_packet (hash : String → String) (cfg : Config) (timestamp : Int)
    (energy_wh : ℚ) (cumulative : ℚ) (readings : List SensorReading) :
    List (String × Json) :=
  let packet : PoEPacket :=
    { device_id := generate_device_id hash cfg
      timestamp := timestamp
      energy_wh := pyInt energy_wh
      cumulative_energy := pyInt cumulative
      sensor_readings := readings }
  let packet_dict := asdictPacket packet
  let packet_dict := packet_dict ++
    [("signature", Json.str (sign_packet hash cfg.private_key packet_dict))]
  packet_dict ++ [("meter_id", Json.str cfg.meter_id)]

/-- Python `d[k]` on the packet dict (keys are unique, so first match). -/
def dictGet (d : List (String × Json)) (k : String) : Option Json :=
  (d.find? (fun kv => kv.1 = k)).map (fun kv => kv.2)

/-- Outcome of the `requests.post` call in `send_to_oracle`: an HTTP response
with a status code, a `requests.exceptions.RequestException`
(timeout, connection refused, DNS, ...), or any other exception. -/
inductive HttpOutcome where
  | response (status : Nat)
  | requestException
  | otherException
deriving DecidableEq, Repr

/-- The statistics counters `readings_sent` / `readings_failed`. -/
structure Counters where
  readings_sent : Nat
  readings_failed : Nat
deriving DecidableEq, Repr

/-- `SmartMeterReader.send_to_oracle` (lines 241-277): status 200 increments
`readings_sent` and returns `True`; any other status or any exception
increments `readings_failed` and returns `False`.  The Python method catches
every exception, so it is a total function of the outcome. -/
def send_to_oracle (c : Counters) (outcome : HttpOutcome) : Counters × Bool :=
  match outcome with
  | .response status =>
    if status = 200 then
      ({ c with readings_sent := c.readings_sent + 1 }, true)
    else
      ({ c with readings_failed := c.readings_failed + 1 }, false)
  | .requestException =>
      ({ c with readings_failed := c.readings_failed + 1 }, false)
  | .otherException =>
      ({ c with readings_failed := c.readings_failed + 1 }, false)

/-- The mutable state a cycle of `SmartMeterReader.run` touches:
`self.cumulative_energy_wh`, `self.last_reading_time`, the counters, and the
loop-local `reading_buffer` (which persists across iterations). -/
structure CycleState where
  cumulative_energy_wh : ℚ
  last_reading_time : ℚ
  reading_buffer : List SensorReading
  readings_sent : Nat
  readings_failed : Nat
deriving Repr

/-- `buffer_size = 6` (line 312). -/
def buffer_size : Nat := 6

/-- The per-cycle environment inputs: the sensor reading, the two clock
samples (`time.time()` and `int(time.time()*1000)`), and the oracle's
response (consumed only if a packet is actually sent). -/
structure CycleInput where
  reading : SensorReading
  current_time : ℚ
  timestamp : Int
  outcome : HttpOutcome
deriving Repr

/-- State-passing embedding of the `calculate_energy` method call: the method
body reads only its two arguments and assigns no attribute of `self`, so the
state comes back unchanged and the return value is the pure function. -/
def calculate_energy_self (s : CycleState) (reading : SensorReading)
    (time_delta : ℚ) : CycleState × ℚ :=
  (s, calculate_energy reading time_delta)

/-- One iteration of the `while True` loop of `SmartMeterReader.run`
(lines 314-360), without the sleep: append the reading to the buffer, evict
the oldest entry past `buffer_size`, compute `time_delta` from
`last_reading_time`, compute the energy increment; if it is `> 0`, add it to
`cumulative_energy_wh`, build the packet and send it (updating the counters);
in every case set `last_reading_time` to the current time.  Returns the new
state and the packet that was built, if any. -/
def run_cycle (hash : String → String) (cfg : Config) (s : CycleState)
    (inp : CycleInput) : CycleState × Option (List (String × Json)) :=
  let buffer1 := s.reading_buffer ++ [inp.reading]
  let buffer2 := if buffer_size < buffer1.length then buffer1.tail else buffer1
  let time_delta := inp.current_time - s.last_reading_time
  let (s1, energy_wh) := calculate_energy_self s inp.reading time_delta
  if 0 < energy_wh then
    let cumulative := s1.cumulative_energy_wh + energy_wh
    let poe_packet := create_poe_packet hash cfg inp.timestamp energy_wh cumulative buffer2
    let (c, _ok) := send_to_oracle ⟨s1.readings_sent, s1.readings_failed⟩ inp.outcome
    ({ cumulative_energy_wh := cumulative
       last_reading_time := inp.current_time
       reading_buffer := buffer2
       readings_sent := c.readings_sent
       readings_failed := c.readings_failed }, some poe_packet)
  else
    ({ s1 with reading_buffer := buffer2
               last_reading_time := inp.current_time }, none)

/-- Iterating `run_cycle` over a list of per-cycle inputs. -/
def run_loop (hash : String → String) (cfg : Config) (s : CycleState)
    (inps : List CycleInput) : CycleState :=
  inps.foldl (fun st inp => (run_cycle hash cfg st inp).1) s

/-- The energy increments `calculate_energy` produces along a run, one per
cycle, with the state evolving as in `run_loop`. -/
def cycle_increments (hash : String → String) (cfg : Config) :
    CycleState → List CycleInput → List ℚ
  | _, [] => []
  | s, inp :: rest =>
    calculate_energy inp.reading (inp.current_time - s.last_reading_time) ::
      cycle_increments hash cfg (run_cycle hash cfg s inp).1 rest

/-! ## Helper lemmas -/

theorem leChars_total : ∀ a b, leChars a b = true ∨ leChars b a = true := by
  intro a
  induction a with
  | nil => intro b; left; rfl
  | cons c cs ih =>
    intro b
    cases b with
    | nil => right; rfl
    | cons d ds =>
      by_cases h1 : c.toNat < d.toNat
      · left; simp [leChars, h1]
      · by_cases h2 : d.toNat < c.toNat
        · right; simp [leChars, h2]
        · rcases ih ds with h | h
          · left; simp [leChars, h1, h2, h]
          · right; simp [leChars, h1, h2, h]

theorem leChars_trans : ∀ a b c, leChars a b = true → leChars b c = true →
    leChars a c = true := by
  intro a
  induction a with
  | nil => intro b c _ _; rfl
  | cons e es ih =>
    intro b c h1 h2
    cases b with
    | nil => simp [leChars] at h1
    | cons f fs =>
      cases c with
      | nil => simp [leChars] at h2
      | cons g gs =>
        simp only [leChars] at h1 h2 ⊢
        split_ifs at h1 h2 ⊢ <;>
          first
            | rfl
            | omega
            | exact ih fs gs h1 h2
            | simp at h1
            | simp at h2

theorem leChars_antisymm : ∀ a b, leChars a b = true → leChars b a = true →
    a = b := by
  intro a
  induction a with
  | nil =>
    intro b _ h2
    cases b with
    | nil => rfl
    | cons d ds => simp [leChars] at h2
  | cons c cs ih =>
    intro b h1 h2
    cases b with
    | nil => simp [leChars] at h1
    | cons d ds =>
      simp only [leChars] at h1 h2
      split_ifs at h1 h2 <;> first
        | omega
        | simp at h1
        | simp at h2
        | (have hnat : c.toNat = d.toNat := by omega
           have hcd : c = d := by
             apply Char.eq_of_val_eq
             apply UInt32.eq_of_toBitVec_eq
             apply BitVec.eq_of_toNat_eq
             exact hnat
           exact hcd ▸ congrArg (c :: ·) (ih ds h1 h2))

instance : IsTotal (String × String) keyLe :=
  ⟨fun a b => leChars_total a.1.data b.1.data⟩

instance : IsTrans (String × String) keyLe :=
  ⟨fun a b c => leChars_trans a.1.data b.1.data c.1.data⟩

theorem keyLe_antisymm_fst {a b : String × String} (h1 : keyLe a b) (h2 : keyLe b a) :
    a.1 = b.1 :=
  String.ext (leChars_antisymm a.1.data b.1.data h1 h2)

/-- Two permuted pair lists with duplicate-free keys sort to the same list. -/
theorem sortPairs_eq_of_perm {l₁ l₂ : List (String × String)}
    (hp : l₁.Perm l₂) (hn : (l₁.map Prod.fst).Nodup) :
    sortPairs l₁ = sortPairs l₂ := by
  haveI : IsAntisymm (String × String) (fun a b => keyLe a b ∧ a.1 ≠ b.1) :=
    ⟨fun a b h1 h2 => absurd (keyLe_antisymm_fst h1.1 h2.1) h1.2⟩
  have hperm : (sortPairs l₁).Perm (sortPairs l₂) :=
    ((List.perm_insertionSort keyLe l₁).trans hp).trans
      (List.perm_insertionSort keyLe l₂).symm
  have hs₁ : (sortPairs l₁).Sorted keyLe := List.sorted_insertionSort keyLe l₁
  have hs₂ : (sortPairs l₂).Sorted keyLe := List.sorted_insertionSort keyLe l₂
  have hn₂ : (l₂.map Prod.fst).Nodup := (hp.map Prod.fst).nodup_iff.mp hn
  have hnd₁ : ((sortPairs l₁).map Prod.fst).Nodup :=
    ((List.perm_insertionSort keyLe l₁).map Prod.fst).nodup_iff.mpr hn
  have hnd₂ : ((sortPairs l₂).map Prod.fst).Nodup :=
    ((List.perm_insertionSort keyLe l₂).map Prod.fst).nodup_iff.mpr hn₂
  have hne₁ : (sortPairs l₁).Pairwise (fun a b => a.1 ≠ b.1) :=
    (List.pairwise_map.mp hnd₁)
  have hne₂ : (sortPairs l₂).Pairwise (fun a b => a.1 ≠ b.1) :=
    (List.pairwise_map.mp hnd₂)
  exact List.eq_of_perm_of_sorted hperm (hs₁.and hne₁) (hs₂.and hne₂)

theorem dumpsFields_ofList (l : List (String × Json)) :
    dumpsFields (JsonFields.ofList l) = l.map (fun kv => (kv.1, dumps kv.2)) := by
  induction l with
  | nil => rfl
  | cons kv rest ih =>
    cases kv
    simp [JsonFields.ofList, dumpsFields, ih]

/-- Canonical serialization is insensitive to the construction order of an
object with duplicate-free keys. -/
theorem dumps_obj_eq_of_perm {d₁ d₂ : List (String × Json)} (hp : d₁.Perm d₂)
    (hn : (d₁.map Prod.fst).Nodup) :
    dumps (Json.obj (JsonFields.ofList d₁)) = dumps (Json.obj (JsonFields.ofList d₂)) := by
  have hmap : (d₁.map (fun kv => (kv.1, dumps kv.2))).Perm
      (d₂.map (fun kv => (kv.1, dumps kv.2))) := hp.map _
  have hkeys : ((d₁.map (fun kv => (kv.1, dumps kv.2))).map Prod.fst).Nodup := by
    simpa [List.map_map, Function.comp] using hn
  simp only [dumps, dumpsFields_ofList]
  rw [sortPairs_eq_of_perm hmap hkeys]

theorem calculate_energy_nonneg (reading : SensorReading) (time_delta : ℚ) :
    0 ≤ calculate_energy reading time_delta :=
  le_max_left 0 _

theorem calculate_energy_zero_of_nonpos (reading : SensorReading) (time_delta : ℚ)
    (h : calculate_energy reading time_delta ≤ 0) :
    calculate_energy reading time_delta = 0 :=
  le_antisymm h (calculate_energy_nonneg reading time_delta)

/-- After any cycle the cumulative equals its prior value plus the cycle's
increment: the loop adds the increment when it is positive, and a non-positive
increment is exactly zero because of the clamp. -/
theorem run_cycle_cumulative (hash : String → String) (cfg : Config)
    (s : CycleState) (inp : CycleInput) :
    (run_cycle hash cfg s inp).1.cumulative_energy_wh =
      s.cumulative_energy_wh +
        calculate_energy inp.reading (inp.current_time - s.last_reading_time) := by
  by_cases h : 0 < calculate_energy inp.reading (inp.current_time - s.last_reading_time)
  · simp [run_cycle, calculate_energy_self, h]
  · have h0 := calculate_energy_zero_of_nonpos inp.reading
      (inp.current_time - s.last_reading_time) (not_lt.mp h)
    simp [run_cycle, calculate_energy_self, h, h0]

/-! ## Concrete inputs used by counterexamples and witnesses -/

/-- The identity function standing for the hash in concrete instances. -/
def idHash : String → String := fun s => s

/-- A small concrete configuration. -/
def demoConfig : Config := ⟨"m", "man", "s", "K"⟩

/-- A reading with V=1, I=1, pf=1 (so power is 1 W). -/
def unitReading : SensorReading := ⟨0, 1, 1, 1, 50, 25, 45⟩

/-- An all-zero (sensor-fault) reading. -/
def zeroReading : SensorReading := ⟨0, 0, 0, 0, 0, 0, 0⟩

/-- Fresh state as `__init__` leaves it (cumulative 0, empty buffer). -/
def startState : CycleState := ⟨0, 0, [], 0, 0⟩

/-- A cycle input 1800 s after the initial reading time, giving a 0.5 Wh
increment with `unitReading`. -/
def halfWhInput : CycleInput := ⟨unitReading, 1800, 7, .response 200⟩

/-- A cycle input whose reading is the all-zero sensor-fault reading. -/
def zeroInput : CycleInput := ⟨zeroReading, 300, 9, .response 200⟩

/-- A state with nonzero cumulative energy, for the C4 counterexample. -/
def fiveWhState : CycleState := ⟨5, 0, [], 0, 0⟩

/-! ## Claim theorems -/

/-- C1, counterexample: the claim says the attached signature is reproduced by
re-signing the canonical JSON of all fields of the final packet other than
`signature` itself (so including `meter_id`).  At a concrete packet this
fails, because `meter_id` is attached only after signing. -/
theorem create_poe_packet_sign_over_meter_id_cex :
    dictGet (create_poe_packet idHash demoConfig 7 1 1 []) "signature" ≠
      some (.str (sign_packet idHash demoConfig.private_key
        ((create_poe_packet idHash demoConfig 7 1 1 []).filter
          (fun kv => kv.1 ≠ "signature")))) := by
  have h1 : pyInt 1 = 1 := by norm_num [pyInt]
  simp [create_poe_packet, asdictPacket, generate_device_id, dictGet, h1,
    demoConfig, sign_packet, idHash]
  decide

/-- C1, amended: for every packet produced by `create_poe_packet`, the attached
`signature` is exactly `sign_packet` applied to the fields of the final packet
excluding both the `signature` field and the `meter_id` field — `meter_id` is
attached after signing, so the signature does not cover it. -/
theorem create_poe_packet_signature_verifies (hash : String → String)
    (cfg : Config) (ts : Int) (e c : ℚ) (rs : List SensorReading) :
    dictGet (create_poe_packet hash cfg ts e c rs) "signature" =
      some (.str (sign_packet hash cfg.private_key
        ((create_poe_packet hash cfg ts e c rs).filter
          (fun kv => kv.1 ≠ "signature" ∧ kv.1 ≠ "meter_id")))) := by
  simp [create_poe_packet, asdictPacket, dictGet]

/-- C2: `sign_packet` is deterministic over logical record content — for two
packet dictionaries with the same key-value pairs in any insertion order
(keys duplicate-free, as in a Python dict), the canonical JSON encodings are
byte-identical and the signatures coincide, for every hash function. -/
theorem sign_packet_deterministic (hash : String → String) (private_key : String)
    {d₁ d₂ : List (String × Json)} (hp : d₁.Perm d₂)
    (hn : (d₁.map Prod.fst).Nodup) :
    dumps (Json.obj (JsonFields.ofList d₁)) = dumps (Json.obj (JsonFields.ofList d₂)) ∧
    sign_packet hash private_key d₁ = sign_packet hash private_key d₂ := by
  have hd := dumps_obj_eq_of_perm hp hn
  exact ⟨hd, by simp [sign_packet, hd]⟩

/-- C2, witness at concrete two-field dictionaries built in opposite orders. -/
theorem sign_packet_deterministic_witness :
    dumps (Json.obj (JsonFields.ofList [("b", Json.int 2), ("a", Json.str "x")])) =
      dumps (Json.obj (JsonFields.ofList [("a", Json.str "x"), ("b", Json.int 2)])) ∧
    sign_packet idHash "K" [("b", Json.int 2), ("a", Json.str "x")] =
      sign_packet idHash "K" [("a", Json.str "x"), ("b", Json.int 2)] :=
  sign_packet_deterministic idHash "K" (List.Perm.swap _ _ _) (by decide)

/-- C3, counterexample: the claim says the packet's `energy_wh` field equals
the increment returned by `calculate_energy` for the cycle.  In a cycle with a
0.5 Wh increment a packet is built, but its `energy_wh` field is the truncated
integer 0, not the increment 1/2. -/
theorem packet_energy_wh_eq_increment_cex :
    run_cycle idHash demoConfig startState halfWhInput =
      ({ cumulative_energy_wh := 1/2, last_reading_time := 1800,
         reading_buffer := [unitReading], readings_sent := 1, readings_failed := 0 },
       some (create_poe_packet idHash demoConfig 7 (1/2) (1/2) [unitReading])) ∧
    dictGet (create_poe_packet idHash demoConfig 7 (1/2) (1/2) [unitReading]) "energy_wh" =
      some (.int 0) ∧
    calculate_energy halfWhInput.reading
      (halfWhInput.current_time - startState.last_reading_time) = 1/2 ∧
    (0 : ℚ) ≠ 1/2 := by
  have hinc : calculate_energy unitReading 1800 = 1/2 := by
    norm_num [calculate_energy, unitReading]
  refine ⟨?_, ?_, ?_, by norm_num⟩
  · simp [run_cycle, calculate_energy_self, startState, halfWhInput, hinc,
      send_to_oracle, buffer_size]
  · simp [create_poe_packet, asdictPacket, dictGet]
    norm_num [pyInt]
  · simpa [halfWhInput, startState] using hinc

/-- C3, amended: whenever a cycle builds a packet, the packet's `energy_wh`
field is the `int(...)` truncation of the energy increment `calculate_energy`
returned for that cycle's elapsed interval (equal to the increment whenever
the increment is integral). -/
theorem packet_energy_wh_eq_int_increment (hash : String → String) (cfg : Config)
    (s : CycleState) (inp : CycleInput) (s' : CycleState) (p : List (String × Json))
    (h : run_cycle hash cfg s inp = (s', some p)) :
    dictGet p "energy_wh" =
      some (.int (pyInt (calculate_energy inp.reading
        (inp.current_time - s.last_reading_time)))) := by
  by_cases hp : 0 < calculate_energy inp.reading (inp.current_time - s.last_reading_time)
  · simp [run_cycle, calculate_energy_self, hp] at h
    rw [← h.2]
    simp [create_poe_packet, asdictPacket, dictGet]
  · simp [run_cycle, calculate_energy_self, hp] at h

/-- C3, witness: the amended theorem applied to the concrete 0.5 Wh cycle. -/
theorem packet_energy_wh_eq_int_increment_witness :
    dictGet (create_poe_packet idHash demoConfig 7 (1/2) (1/2) [unitReading]) "energy_wh" =
      some (.int (pyInt (calculate_energy halfWhInput.reading
        (halfWhInput.current_time - startState.last_reading_time)))) := by
  have hinc : calculate_energy unitReading 1800 = 1/2 := by
    norm_num [calculate_energy, unitReading]
  have h : run_cycle idHash demoConfig startState halfWhInput =
      ({ cumulative_energy_wh := 1/2, last_reading_time := 1800,
         reading_buffer := [unitReading], readings_sent := 1, readings_failed := 0 },
       some (create_poe_packet idHash demoConfig 7 (1/2) (1/2) [unitReading])) := by
    simp [run_cycle, calculate_energy_self, startState, halfWhInput, hinc,
      send_to_oracle, buffer_size]
  exact packet_energy_wh_eq_int_increment idHash demoConfig startState halfWhInput _ _ h

/-- C4, counterexample: the claim says the `calculate_energy` call itself adds
the returned increment to the cumulative total.  At a concrete call that
returns a positive increment, the state after the call is unchanged, so the
cumulative total after the call is not the prior total plus the increment. -/
theorem calculate_energy_side_effect_cex :
    0 < (calculate_energy_self fiveWhState unitReading 3600).2 ∧
    (calculate_energy_self fiveWhState unitReading 3600).1.cumulative_energy_wh ≠
      fiveWhState.cumulative_energy_wh +
        (calculate_energy_self fiveWhState unitReading 3600).2 := by
  norm_num [calculate_energy_self, calculate_energy, fiveWhState, unitReading]

/-- C4, amended: `calculate_energy` is pure — it returns the increment and
leaves the reader's state untouched; the accumulation happens in the `run`
loop, which after each cycle leaves the cumulative total equal to its prior
value plus the returned increment (it adds only positive increments, and a
non-positive increment is exactly zero because of the clamp). -/
theorem calculate_energy_pure_run_loop_accumulates (hash : String → String)
    (cfg : Config) (s : CycleState) (reading : SensorReading) (time_delta : ℚ)
    (inp : CycleInput) :
    (calculate_energy_self s reading time_delta).1 = s ∧
    (run_cycle hash cfg s inp).1.cumulative_energy_wh =
      s.cumulative_energy_wh +
        calculate_energy inp.reading (inp.current_time - s.last_reading_time) :=
  ⟨rfl, run_cycle_cumulative hash cfg s inp⟩

/-- C5: for every reading and every time delta (including negative ones) the
energy increment is non-negative, and with a zero time delta it is exactly 0. -/
theorem calculate_energy_nonneg_zero_delta (reading : SensorReading)
    (time_delta : ℚ) :
    0 ≤ calculate_energy reading time_delta ∧ calculate_energy reading 0 = 0 := by
  constructor
  · exact calculate_energy_nonneg reading time_delta
  · simp [calculate_energy]

/-- C6: cumulative energy is non-decreasing at every cycle, and after any
number of cycles it equals the initial value plus the exact sum of the
(individually non-negative) increments `calculate_energy` produced — exact
over `ℚ`, which stands for the floating-point arithmetic up to its tolerance. -/
theorem cumulative_energy_monotone_eq_sum (hash : String → String) (cfg : Config)
    (s : CycleState) (inps : List CycleInput) :
    (run_loop hash cfg s inps).cumulative_energy_wh =
      s.cumulative_energy_wh + (cycle_increments hash cfg s inps).sum ∧
    (∀ q ∈ cycle_increments hash cfg s inps, 0 ≤ q) ∧
    (∀ (s' : CycleState) (inp : CycleInput),
      s'.cumulative_energy_wh ≤ (run_cycle hash cfg s' inp).1.cumulative_energy_wh) := by
  refine ⟨?_, ?_, ?_⟩
  · induction inps generalizing s with
    | nil => simp [run_loop, cycle_increments]
    | cons inp rest ih =>
      simp only [run_loop, List.foldl_cons, cycle_increments, List.sum_cons]
      rw [show (List.foldl (fun st i => (run_cycle hash cfg st i).1)
        (run_cycle hash cfg s inp).1 rest) =
          run_loop hash cfg (run_cycle hash cfg s inp).1 rest from rfl]
      rw [ih, run_cycle_cumulative]
      ring
  · induction inps generalizing s with
    | nil => simp [cycle_increments]
    | cons inp rest ih =>
      intro q hq
      simp only [cycle_increments, List.mem_cons] at hq
      rcases hq with hq | hq
      · exact hq ▸ calculate_energy_nonneg _ _
      · exact ih _ q hq
  · intro s' inp
    rw [run_cycle_cumulative]
    exact le_add_of_nonneg_right (calculate_energy_nonneg _ _)

/-- C7, counterexample: the claim says every 2xx status is classified as
success and increments the sent counter.  Status 201 is classified as a
failure: the call returns `false` and increments `readings_failed`. -/
theorem send_to_oracle_2xx_cex :
    send_to_oracle ⟨0, 0⟩ (.response 201) = (⟨0, 1⟩, false) := by decide

/-- C7, amended: within the 2xx range only status 200 is classified as
success — the call returns success and increments `readings_sent` exactly
when the status is 200; any other 2xx status is treated as a failure. -/
theorem send_to_oracle_success_iff_200 (c : Counters) (status : Nat)
    (h1 : 200 ≤ status) (h2 : status ≤ 299) :
    ((send_to_oracle c (.response status)).2 = true ↔ status = 200) ∧
    ((send_to_oracle c (.response status)).1.readings_sent = c.readings_sent + 1 ↔
      status = 200) := by
  by_cases h : status = 200 <;> simp [send_to_oracle, h]

/-- C7, witness: the amended theorem applied at status 201. -/
theorem send_to_oracle_success_iff_200_witness :
    ((send_to_oracle ⟨3, 4⟩ (.response 201)).2 = true ↔ 201 = 200) ∧
    ((send_to_oracle ⟨3, 4⟩ (.response 201)).1.readings_sent = 3 + 1 ↔ 201 = 200) :=
  send_to_oracle_success_iff_200 ⟨3, 4⟩ 201 (by decide) (by decide)

/-- C8: in a cycle whose energy increment is ≤ 0 no packet is built, the
counters are untouched (so the Submitter is never called), yet the reading is
still appended as the last element of the rolling buffer and
`last_reading_time` still advances to the current time. -/
theorem skip_cycle_no_packet (hash : String → String) (cfg : Config)
    (s : CycleState) (inp : CycleInput)
    (h : calculate_energy inp.reading (inp.current_time - s.last_reading_time) ≤ 0) :
    (run_cycle hash cfg s inp).2 = none ∧
    (run_cycle hash cfg s inp).1.readings_sent = s.readings_sent ∧
    (run_cycle hash cfg s inp).1.readings_failed = s.readings_failed ∧
    (run_cycle hash cfg s inp).1.reading_buffer.getLast? = some inp.reading ∧
    (run_cycle hash cfg s inp).1.last_reading_time = inp.current_time := by
  have hnp : ¬ 0 < calculate_energy inp.reading (inp.current_time - s.last_reading_time) :=
    not_lt.mpr h
  have hrc : run_cycle hash cfg s inp =
      ({ cumulative_energy_wh := s.cumulative_energy_wh
         last_reading_time := inp.current_time
         reading_buffer :=
           if buffer_size < (s.reading_buffer ++ [inp.reading]).length
           then (s.reading_buffer ++ [inp.reading]).tail
           else s.reading_buffer ++ [inp.reading]
         readings_sent := s.readings_sent
         readings_failed := s.readings_failed }, none) := by
    simp [run_cycle, calculate_energy_self, hnp]
  rw [hrc]
  refine ⟨rfl, rfl, rfl, ?_, rfl⟩
  by_cases hl : buffer_size < (s.reading_buffer ++ [inp.reading]).length
  · simp only [hl, if_true]
    have hne : s.reading_buffer ≠ [] := by
      intro hnil
      simp [hnil, buffer_size] at hl
    rw [List.tail_append_singleton_of_ne_nil hne]
    exact List.getLast?_concat _
  · simp only [hl, if_false]
    exact List.getLast?_concat _

/-- C8, witness: the theorem applied to a cycle with an all-zero
sensor-fault reading, whose increment is 0. -/
theorem skip_cycle_no_packet_witness :
    (run_cycle idHash demoConfig startState zeroInput).2 = none ∧
    (run_cycle idHash demoConfig startState zeroInput).1.readings_sent =
      startState.readings_sent ∧
    (run_cycle idHash demoConfig startState zeroInput).1.readings_failed =
      startState.readings_failed ∧
    (run_cycle idHash demoConfig startState zeroInput).1.reading_buffer.getLast? =
      some zeroInput.reading ∧
    (run_cycle idHash demoConfig startState zeroInput).1.last_reading_time =
      zeroInput.current_time :=
  skip_cycle_no_packet idHash demoConfig startState zeroInput
    (by norm_num [calculate_energy, zeroInput, zeroReading, startState])

/-- C9: `send_to_oracle` returns success exactly on HTTP status 200 (then
`readings_sent` goes up by one); any other status or any exception yields
failure and bumps `readings_failed`; every call increments exactly one of the
two counters, and both counters are non-decreasing.  Totality of the embedded
function reflects that the Python method catches every exception. -/
theorem send_to_oracle_counters_spec (c : Counters) (outcome : HttpOutcome) :
    ((send_to_oracle c outcome).2 = true ↔ outcome = .response 200) ∧
    (outcome = .response 200 →
      (send_to_oracle c outcome).1 = ⟨c.readings_sent + 1, c.readings_failed⟩) ∧
    (outcome ≠ .response 200 →
      (send_to_oracle c outcome).1 = ⟨c.readings_sent, c.readings_failed + 1⟩) ∧
    (send_to_oracle c outcome).1.readings_sent + (send_to_oracle c outcome).1.readings_failed
      = c.readings_sent + c.readings_failed + 1 ∧
    c.readings_sent ≤ (send_to_oracle c outcome).1.readings_sent ∧
    c.readings_failed ≤ (send_to_oracle c outcome).1.readings_failed := by
  cases outcome with
  | response status =>
    by_cases h : status = 200 <;> simp [send_to_oracle, h] <;> omega
  | requestException => simp [send_to_oracle]; omega
  | otherException => simp [send_to_oracle]; omega

/-- C10: whenever the run loop builds a packet, the cumulative total was
already updated before `create_poe_packet` ran, so the packet's
`cumulative_energy` snapshot is the truncation of the previous cumulative
total plus that same cycle's increment. -/
theorem packet_cumulative_includes_increment (hash : String → String)
    (cfg : Config) (s : CycleState) (inp : CycleInput) (s' : CycleState)
    (p : List (String × Json))
    (h : run_cycle hash cfg s inp = (s', some p)) :
    dictGet p "cumulative_energy" =
      some (.int (pyInt (s.cumulative_energy_wh +
        calculate_energy inp.reading (inp.current_time - s.last_reading_time)))) := by
  by_cases hp : 0 < calculate_energy inp.reading (inp.current_time - s.last_reading_time)
  · simp [run_cycle, calculate_energy_self, hp] at h
    rw [← h.2]
    simp [create_poe_packet, asdictPacket, dictGet]
  · simp [run_cycle, calculate_energy_self, hp] at h

/-- C10, witness: the theorem applied to the concrete 0.5 Wh cycle. -/
theorem packet_cumulative_includes_increment_witness :
    dictGet (create_poe_packet idHash demoConfig 7 (1/2) (1/2) [unitReading])
      "cumulative_energy" =
      some (.int (pyInt (startState.cumulative_energy_wh +
        calculate_energy halfWhInput.reading
          (halfWhInput.current_time - startState.last_reading_time)))) := by
  have hinc : calculate_energy unitReading 1800 = 1/2 := by
    norm_num [calculate_energy, unitReading]
  have h : run_cycle idHash demoConfig startState halfWhInput =
      ({ cumulative_energy_wh := 1/2, last_reading_time := 1800,
         reading_buffer := [unitReading], readings_sent := 1, readings_failed := 0 },
       some (create_poe_packet idHash demoConfig 7 (1/2) (1/2) [unitReading])) := by
    simp [run_cycle, calculate_energy_self, startState, halfWhInput, hinc,
      send_to_oracle, buffer_size]
  exact packet_cumulative_includes_increment idHash demoConfig startState halfWhInput _ _ h

end IotSensorReader
